import Mathlib

/-!
Shallow embedding of `src/proto/simple_control.py`, a minimal P4Runtime
controller: it opens a stream channel and performs master arbitration,
installs a forwarding pipeline, resolves table/action identifiers from the
loaded P4Info, and inserts two LPM table entries.

Python-level semantics that matter here are modelled explicitly:
 - `int(s)` on a string (whitespace stripping, optional sign, underscore
   grouping) as `pythonInt`;
 - `bytes(...)` range checking (each value in `[0, 255]`) inside
   `ipv4_to_bytes`;
 - `int.to_bytes(length, "big")`, which raises `OverflowError` for negative
   values and for values that do not fit, as `to_bytes` returning `none`;
 - exceptions as `Option`/`Except` results.
-/

set_option autoImplicit false

/-- Characters of a string split on `'.'`, mirroring Python `s.split(".")`
(`"".split(".") == [""]`, empty components preserved). -/
def splitOnDot : List Char → List (List Char)
  | [] => [[]]
  | c :: rest =>
    if c = '.' then [] :: splitOnDot rest
    else
      match splitOnDot rest with
      | g :: gs => (c :: g) :: gs
      | [] => [[c]]

/-- State machine for the digit part of a Python integer literal:
digits optionally separated by single underscores, no leading/trailing
underscore.  `seenDigit` records whether the previous character was a digit. -/
def digitsOk : List Char → Bool → Bool
  | [], seenDigit => seenDigit
  | c :: rest, seenDigit =>
    if c.isDigit then digitsOk rest true
    else if c = '_' then seenDigit && digitsOk rest false
    else false

/-- Numeric value of a digit run, skipping underscore separators. -/
def digitsVal (cs : List Char) : Nat :=
  cs.foldl (fun acc c => if c = '_' then acc else acc * 10 + (c.toNat - 48)) 0

/-- Python `int(s)` for a decimal string: strip surrounding whitespace,
allow one optional sign, then a valid digit run; `none` models `ValueError`. -/
def pythonInt (cs : List Char) : Option Int :=
  let t := ((cs.dropWhile Char.isWhitespace).reverse.dropWhile Char.isWhitespace).reverse
  match t with
  | '+' :: rest => if digitsOk rest false then some (Int.ofNat (digitsVal rest)) else none
  | '-' :: rest => if digitsOk rest false then some (-(Int.ofNat (digitsVal rest))) else none
  | rest => if digitsOk rest false then some (Int.ofNat (digitsVal rest)) else none

/-- `ipv4_to_bytes(ip)` from the source: `bytes(map(int, ip.split(".")))`.
Each dot-separated component is parsed with Python `int`; `bytes` then
requires every value to lie in `[0, 255]`.  `none` models the raised
`ValueError`.  Note there is no check that exactly 4 components exist. -/
def ipv4_to_bytes (ip : String) : Option (List Nat) :=
  match (splitOnDot ip.toList).mapM pythonInt with
  | none => none
  | some vals =>
    if vals.all (fun v => 0 ≤ v && v < 256) then some (vals.map Int.toNat) else none

/-- Big-endian byte expansion of a natural number into `k` bytes. -/
def natToBytesBE (n : Nat) : Nat → List Nat
  | 0 => []
  | k + 1 => natToBytesBE (n / 256) k ++ [n % 256]

/-- Python `n.to_bytes(length, "big")`: raises `OverflowError` (here `none`)
for negative `n` and for `n ≥ 256 ^ length`; otherwise yields exactly
`length` big-endian bytes. -/
def to_bytes (n : Int) (length : Nat) : Option (List Nat) :=
  if n < 0 then none
  else if (2 : Int) ^ (8 * length) ≤ n then none
  else some (natToBytesBE n.toNat length)

/-! ### P4Info data model (program description) -/

structure Preamble where
  name : String
  id : Nat
  deriving DecidableEq

structure MatchField where
  name : String
  id : Nat
  deriving DecidableEq

structure Table where
  preamble : Preamble
  match_fields : List MatchField
  deriving DecidableEq

structure Param where
  name : String
  id : Nat
  deriving DecidableEq

structure P4Action where
  preamble : Preamble
  params : List Param
  deriving DecidableEq

structure P4Info where
  tables : List Table
  actions : List P4Action
  deriving DecidableEq

/-! ### P4Runtime request messages -/

structure ElectionId where
  high : Nat
  low : Nat
  deriving DecidableEq

structure MasterArbitrationUpdate where
  device_id : Nat
  election_id : ElectionId
  deriving DecidableEq

inductive PipelineConfigAction where
  | VERIFY_AND_COMMIT
  deriving DecidableEq

structure SetForwardingPipelineConfigRequest where
  device_id : Nat
  action : PipelineConfigAction
  election_id : ElectionId
  p4info : P4Info
  p4_device_config : List Nat
  deriving DecidableEq

structure LpmMatch where
  value : List Nat
  prefix_len : Nat
  deriving DecidableEq

structure FieldMatch where
  field_id : Nat
  lpm : LpmMatch
  deriving DecidableEq

structure ActionParam where
  param_id : Nat
  value : List Nat
  deriving DecidableEq

structure TableAction where
  action_id : Nat
  params : List ActionParam
  deriving DecidableEq

structure TableEntry where
  table_id : Nat
  matchFields : List FieldMatch
  action : TableAction
  deriving DecidableEq

inductive UpdateType where
  | INSERT
  deriving DecidableEq

structure Entity where
  table_entry : TableEntry
  deriving DecidableEq

structure Update where
  type : UpdateType
  entity : Entity
  deriving DecidableEq

structure WriteRequest where
  device_id : Nat
  election_id : ElectionId
  updates : List Update
  deriving DecidableEq

/-! ### Schema resolution (the id-lookup loops in `main`, lines 142-161) -/

/-- Inner loop over `t.match_fields` (lines 145-147).  The loop has no
`break`: every matching field overwrites `match_field_id`, so the final
value comes from the LAST matching field; `acc` carries the current value. -/
def scan_match_fields (match_field : String) : List MatchField → Option Nat → Option Nat
  | [], acc => acc
  | mf :: rest, acc =>
    scan_match_fields match_field rest (if mf.name = match_field then some mf.id else acc)

/-- Outer loop over `p4info.tables` (lines 142-148), with `break` after the
first table whose preamble name matches.  Returns `(table_id, match_field_id)`. -/
def scan_tables (table_name match_field : String) : List Table → Option Nat × Option Nat
  | [] => (none, none)
  | t :: rest =>
    if t.preamble.name = table_name then
      (some t.preamble.id, scan_match_fields match_field t.match_fields none)
    else scan_tables table_name match_field rest

/-- Loop over `a.params` looking for a parameter named `"port"`
(lines 154-157), with `break` at the first hit. -/
def scan_params : List Param → Option Nat
  | [] => none
  | p :: rest => if p.name = "port" then some p.id else scan_params rest

/-- Parameter-id resolution inside the matched action (lines 154-160):
first the `"port"` scan, then `if param_id is None and a.params:` falls back
to the first declared parameter. -/
def fallbackParamId (a : P4Action) : Option Nat :=
  match scan_params a.params, a.params with
  | none, p0 :: _ => some p0.id
  | pid, _ => pid

/-- Loop over `p4info.actions` (lines 150-161), with `break` after the first
action whose preamble name matches.  Returns `(action_id, param_id)`. -/
def scan_actions (action_name : String) : List P4Action → Option Nat × Option Nat
  | [] => (none, none)
  | a :: rest =>
    if a.preamble.name = action_name then
      (some a.preamble.id, fallbackParamId a)
    else scan_actions action_name rest

/-- Python truthiness of an optional integer id: `None` and `0` are falsy. -/
def truthy : Option Nat → Bool
  | none => false
  | some n => n != 0

/-- Python `all([...])` over optional integer ids (line 163):
`not all([table_id, match_field_id, action_id, param_id])` aborts `main`. -/
def pyAll (l : List (Option Nat)) : Bool :=
  l.all truthy

/-! ### Spec-side resolution definitions (for comparison with the scans) -/

/-- First table whose preamble name matches, as the spec describes the scan. -/
def firstMatchingTable (table_name : String) : List Table → Option Table
  | [] => none
  | t :: rest => if t.preamble.name = table_name then some t else firstMatchingTable table_name rest

/-- Modelled from the spec: "the returned match-field identifier is that of
the first match field within that table whose name equals the requested
match-field name" — first-match-wins lookup of a match-field id. -/
def firstMatchFieldId (match_field : String) : List MatchField → Option Nat
  | [] => none
  | mf :: rest => if mf.name = match_field then some mf.id else firstMatchFieldId match_field rest

/-- Last matching match-field id (what the break-less inner loop computes). -/
def lastMatchFieldId (match_field : String) : List MatchField → Option Nat
  | [] => none
  | mf :: rest =>
    match lastMatchFieldId match_field rest with
    | some i => some i
    | none => if mf.name = match_field then some mf.id else none

/-- First action whose preamble name matches. -/
def firstMatchingAction (action_name : String) : List P4Action → Option P4Action
  | [] => none
  | a :: rest => if a.preamble.name = action_name then some a else firstMatchingAction action_name rest

/-! ### RuleInstaller: `insert_lpm` (lines 170-199) -/

/-- Construction of the write request inside `insert_lpm` (lines 171-193).
`ipv4_to_bytes` is evaluated first (line 176), then `out_port.to_bytes(2,
"big")` (line 183); either raising (modelled by `none`) aborts before any
request exists.  On success the request holds a single INSERT update over
one table entry with one LPM field match and one action parameter. -/
def insert_lpm (table_id match_field_id action_id param_id : Nat)
    (device_id election_id : Nat)
    (dst_ip : String) (prefix_len : Nat) (out_port : Int) : Option WriteRequest :=
  match ipv4_to_bytes dst_ip with
  | none => none
  | some addr =>
    match to_bytes out_port 2 with
    | none => none
    | some pval =>
      let te : TableEntry :=
        { table_id := table_id
          matchFields := [{ field_id := match_field_id, lpm := { value := addr, prefix_len := prefix_len } }]
          action := { action_id := action_id, params := [{ param_id := param_id, value := pval }] } }
      let upd : Update := { type := UpdateType.INSERT, entity := { table_entry := te } }
      some { device_id := device_id
             election_id := { high := 0, low := election_id }
             updates := [upd] }

/-- Messages the controller sends to the device. -/
inductive DeviceMsg where
  | streamArb (a : MasterArbitrationUpdate)
  | setPipeline (r : SetForwardingPipelineConfigRequest)
  | write (r : WriteRequest)
  deriving DecidableEq

/-- Python exceptions that can escape or be caught in `insert_lpm`/`main`. -/
inductive PyErr where
  | rpcError
  | valueError
  deriving DecidableEq

/-- Command-line arguments of `main` that the model uses. -/
structure Args where
  device_id : Nat
  election_id : Nat
  deriving DecidableEq

/-- Environment: the behavior of the device and the filesystem during one
run — the first stream reply, the results of loading the two files, whether
`SetForwardingPipelineConfig` succeeds, and whether each `Write` succeeds. -/
inductive ArbReply where
  | rpcError
  | nonArbitration
  | arbitration (code : Nat)
  deriving DecidableEq

structure Env where
  arb_reply : ArbReply
  p4info_load : Option P4Info
  json_load : Option (List Nat)
  install_ok : Bool
  write1_ok : Bool
  write2_ok : Bool
  deriving DecidableEq

/-- The stream-request generator `stream_requests` (lines 61-77): message
`n = 0` is the initial arbitration claim, every `n > 0` a periodic
reinforcement; all carry `device_id` and election id `(high 0, low
election_id)`. -/
def stream_requests (args : Args) (_n : Nat) : MasterArbitrationUpdate :=
  { device_id := args.device_id
    election_id := { high := 0, low := args.election_id } }

/-- One `insert_lpm` call including submission (lines 170-199): request
construction, then `stub.Write` inside `try/except grpc.RpcError`.  Returns
the messages sent and the call's outcome: a construction failure escapes as
an uncaught exception, while a rejected write is caught and the call still
returns normally. -/
def insert_lpm_run (table_id match_field_id action_id param_id : Nat)
    (args : Args) (write_ok : Bool)
    (dst_ip : String) (prefix_len : Nat) (out_port : Int) :
    List DeviceMsg × Except PyErr Unit :=
  match insert_lpm table_id match_field_id action_id param_id
      args.device_id args.election_id dst_ip prefix_len out_port with
  | none => ([], Except.error PyErr.valueError)
  | some w =>
    let outcome : Except PyErr Unit :=
      if write_ok then Except.ok () else Except.error PyErr.rpcError
    match outcome with
    | Except.error PyErr.rpcError => ([DeviceMsg.write w], Except.ok ())
    | other => ([DeviceMsg.write w], other)

/-- The foreground control flow of `main` (lines 45-204) as the trace of
messages sent to the device: initial arbitration claim, then — only if the
first stream reply is an arbitration update with status code 0 and both
files load — the pipeline-config request, and — only if installation
succeeds and the four resolved ids pass the truthiness check — the two
`insert_lpm` calls for `10.0.0.1/32 → 0` and `10.0.0.2/32 → 1`. -/
def main_run (args : Args) (env : Env) : List DeviceMsg :=
  let initialArb := DeviceMsg.streamArb (stream_requests args 0)
  match env.arb_reply with
  | ArbReply.rpcError => [initialArb]
  | ArbReply.nonArbitration => [initialArb]
  | ArbReply.arbitration code =>
    if code ≠ 0 then [initialArb]
    else
      match env.p4info_load with
      | none => [initialArb]
      | some p4info =>
        match env.json_load with
        | none => [initialArb]
        | some device_config =>
          let set_req : SetForwardingPipelineConfigRequest :=
            { device_id := args.device_id
              action := PipelineConfigAction.VERIFY_AND_COMMIT
              election_id := { high := 0, low := args.election_id }
              p4info := p4info
              p4_device_config := device_config }
          let sent := [initialArb, DeviceMsg.setPipeline set_req]
          if env.install_ok then
            let tm := scan_tables "my_ingress.ipv4_match" "hdr.ipv4.dst_addr" p4info.tables
            let ap := scan_actions "my_ingress.to_port_action" p4info.actions
            if pyAll [tm.1, tm.2, ap.1, ap.2] then
              match tm.1, tm.2, ap.1, ap.2 with
              | some tid, some mid, some aid, some pid =>
                let r1 := insert_lpm_run tid mid aid pid args env.write1_ok "10.0.0.1" 32 0
                (match r1.2 with
                 | Except.error _ => sent ++ r1.1
                 | Except.ok _ =>
                   let r2 := insert_lpm_run tid mid aid pid args env.write2_ok "10.0.0.2" 32 1
                   sent ++ r1.1 ++ r2.1)
              | _, _, _, _ => sent
            else sent
          else sent

/-- The write requests among a message trace. -/
def writesOf : List DeviceMsg → List WriteRequest
  | [] => []
  | DeviceMsg.write w :: rest => w :: writesOf rest
  | _ :: rest => writesOf rest

/-- The election id a message carries (every message kind carries one). -/
def msgElectionId : DeviceMsg → ElectionId
  | DeviceMsg.streamArb a => a.election_id
  | DeviceMsg.setPipeline r => r.election_id
  | DeviceMsg.write r => r.election_id

/-- The LPM match values of a write request, one list per update. -/
def lpmValuesOf (w : WriteRequest) : List (List (List Nat)) :=
  w.updates.map (fun u => u.entity.table_entry.matchFields.map (fun fm => fm.lpm.value))

/-- A P4Info matching the names hard-coded in `main`. -/
def sampleP4Info : P4Info :=
  { tables := [{ preamble := { name := "my_ingress.ipv4_match", id := 42 }
                 match_fields := [{ name := "hdr.ipv4.dst_addr", id := 7 }] }]
    actions := [{ preamble := { name := "my_ingress.to_port_action", id := 3 }
                  params := [{ name := "port", id := 1 }] }] }

/-- Fully successful environment over `sampleP4Info`. -/
def envAllOk : Env :=
  { arb_reply := ArbReply.arbitration 0
    p4info_load := some sampleP4Info
    json_load := some [1, 2, 3]
    install_ok := true
    write1_ok := true
    write2_ok := true }

/-- The arguments from the usage example: device 0, election id 10. -/
def argsEx : Args := { device_id := 0, election_id := 10 }

example : ipv4_to_bytes "10.0.0.1" = some [10, 0, 0, 1] := by decide
example : ipv4_to_bytes "10.0.1" = some [10, 0, 1] := by decide
example : ipv4_to_bytes "10.0.0.256" = none := by decide
example : ipv4_to_bytes "a.b.c.d" = none := by decide
example : to_bytes 65536 2 = none := by decide
example : to_bytes 65535 2 = some [255, 255] := by decide
example : (writesOf (main_run argsEx envAllOk)).length = 2 := by decide
example : (writesOf (main_run argsEx envAllOk)).map lpmValuesOf =
    [[[[10, 0, 0, 1]]], [[[10, 0, 0, 2]]]] := by decide

/-! ### Helper lemmas -/

theorem natToBytesBE_length (n : Nat) : ∀ k, (natToBytesBE n k).length = k := by
  intro k
  induction k generalizing n with
  | zero => rfl
  | succ k ih => simp [natToBytesBE, ih]

theorem to_bytes_neg (n : Int) (len : Nat) (h : n < 0) : to_bytes n len = none := by
  simp [to_bytes, h]

theorem to_bytes_overflow (n : Int) (h : (65536 : Int) ≤ n) : to_bytes n 2 = none := by
  have h0 : ¬ n < 0 := by omega
  have h1 : (2 : Int) ^ (8 * 2) ≤ n := by norm_num; omega
  simp only [to_bytes, h0, if_false, h1, if_true]

theorem to_bytes_in_range (n : Int) (h0 : 0 ≤ n) (h1 : n < 65536) :
    to_bytes n 2 = some (natToBytesBE n.toNat 2) := by
  have hn : ¬ n < 0 := by omega
  have hh : ¬ (2 : Int) ^ (8 * 2) ≤ n := by norm_num; omega
  simp only [to_bytes, hn, if_false, hh]

theorem writesOf_append (l₁ l₂ : List DeviceMsg) :
    writesOf (l₁ ++ l₂) = writesOf l₁ ++ writesOf l₂ := by
  induction l₁ with
  | nil => rfl
  | cons m rest ih => cases m <;> simp [writesOf, ih]

theorem scan_match_fields_eq (mname : String) (mfs : List MatchField) :
    ∀ acc, scan_match_fields mname mfs acc =
      match lastMatchFieldId mname mfs with
      | some i => some i
      | none => acc := by
  induction mfs with
  | nil => intro acc; rfl
  | cons mf rest ih =>
    intro acc
    simp only [scan_match_fields, lastMatchFieldId, ih]
    cases lastMatchFieldId mname rest with
    | some i => simp
    | none => by_cases hmf : mf.name = mname <;> simp [hmf]

theorem scan_tables_eq (tname mname : String) (ts : List Table) :
    scan_tables tname mname ts =
      match firstMatchingTable tname ts with
      | none => (none, none)
      | some t => (some t.preamble.id, lastMatchFieldId mname t.match_fields) := by
  induction ts with
  | nil => rfl
  | cons t rest ih =>
    simp only [scan_tables, firstMatchingTable]
    by_cases h : t.preamble.name = tname
    · simp [h, scan_match_fields_eq]
      cases lastMatchFieldId mname t.match_fields <;> simp
    · simp [h, ih]

theorem scan_actions_eq (aname : String) (acts : List P4Action) :
    scan_actions aname acts =
      match firstMatchingAction aname acts with
      | none => (none, none)
      | some a => (some a.preamble.id, fallbackParamId a) := by
  induction acts with
  | nil => rfl
  | cons a rest ih =>
    simp only [scan_actions, firstMatchingAction]
    by_cases h : a.preamble.name = aname
    · simp [h]
    · simp [h, ih]

theorem scan_params_none (ps : List Param) (h : ∀ p ∈ ps, p.name ≠ "port") :
    scan_params ps = none := by
  induction ps with
  | nil => rfl
  | cons p rest ih =>
    have hp : p.name ≠ "port" := h p (by simp)
    simp only [scan_params, hp, if_false]
    exact ih (fun q hq => h q (by simp [hq]))

theorem pyAll_none_false (t m a : Option Nat) :
    pyAll [t, m, a, none] = false := by
  simp [pyAll, truthy]

theorem insert_lpm_some_shape (tid mid aid pid dev eid : Nat) (dst : String)
    (pl : Nat) (port : Int) (w : WriteRequest)
    (h : insert_lpm tid mid aid pid dev eid dst pl port = some w) :
    w.election_id = { high := 0, low := eid } ∧
    w.device_id = dev ∧
    w.updates.length = 1 ∧
    (∀ u ∈ w.updates, u.type = UpdateType.INSERT ∧
      u.entity.table_entry.table_id = tid ∧
      u.entity.table_entry.matchFields.length = 1) := by
  unfold insert_lpm at h
  cases hip : ipv4_to_bytes dst with
  | none => rw [hip] at h; exact absurd h (by simp)
  | some addr =>
    rw [hip] at h
    cases hp : to_bytes port 2 with
    | none => rw [hp] at h; exact absurd h (by simp)
    | some pval =>
      rw [hp] at h
      simp only [Option.some.injEq] at h
      subst h
      refine ⟨rfl, rfl, rfl, ?_⟩
      intro u hu
      simp only [List.mem_singleton] at hu
      subst hu
      exact ⟨rfl, rfl, rfl⟩

/-! ### Claim theorems -/

/-- A table whose two match fields share one name, with distinct ids. -/
def c2MatchFields : List MatchField :=
  [{ name := "f", id := 1 }, { name := "f", id := 2 }]

def c2Tables : List Table :=
  [{ preamble := { name := "T", id := 5 }, match_fields := c2MatchFields }]

/-- C2 counterexample: with two match fields named `"f"` (ids 1 and 2) in the
matched table, the id-lookup loop returns id 2 — the LAST matching field —
while the first matching field has id 1, so the claim that the first match
field's id is returned is false. -/
theorem c2_counterexample :
    (scan_tables "T" "f" c2Tables).2 = some 2 ∧
    firstMatchFieldId "f" c2MatchFields = some 1 ∧
    (scan_tables "T" "f" c2Tables).2 ≠ firstMatchFieldId "f" c2MatchFields := by
  decide

/-- C2 (amended): the returned table identifier is that of the first table in
the program's table list whose name equals the requested table name, and the
returned match-field identifier is that of the LAST match field within that
table whose name equals the requested match-field name (the inner loop has
no break, so later matches overwrite earlier ones). -/
theorem c2_resolution_first_table_last_field (tname mname : String) (ts : List Table) :
    scan_tables tname mname ts =
      match firstMatchingTable tname ts with
      | none => (none, none)
      | some t => (some t.preamble.id, lastMatchFieldId mname t.match_fields) :=
  scan_tables_eq tname mname ts

/-- C3 counterexample: for `outputPort = 65536` the port encoding raises
`OverflowError` (Python `to_bytes` does not truncate), so no write request is
constructed, contradicting the claim that the value silently truncates and
the write is still submitted. -/
theorem c3_counterexample :
    insert_lpm 1 7 3 1 0 10 "10.0.0.1" 32 65536 = none ∧
    to_bytes 65536 2 = none := by decide

/-- C3 (amended): for every `outputPort ≥ 65536`, the 2-byte big-endian
encoding fails (`OverflowError`), and `insert_lpm` constructs and submits no
write request at all. -/
theorem c3_overflow_no_write (port : Int) (h : (65536 : Int) ≤ port)
    (tid mid aid pid dev eid : Nat) (dst : String) (pl : Nat) :
    to_bytes port 2 = none ∧ insert_lpm tid mid aid pid dev eid dst pl port = none := by
  have ht := to_bytes_overflow port h
  refine ⟨ht, ?_⟩
  unfold insert_lpm
  cases ipv4_to_bytes dst <;> simp [ht]

theorem c3_witness :
    to_bytes 70000 2 = none ∧ insert_lpm 1 7 3 1 0 10 "10.0.0.1" 32 70000 = none :=
  c3_overflow_no_write 70000 (by norm_num) 1 7 3 1 0 10 "10.0.0.1" 32

/-- C4 counterexample: `"10.0.1"` does not parse into exactly 4 byte values,
yet `ipv4_to_bytes` succeeds with the 3 bytes `[10, 0, 1]` and `insert_lpm`
still constructs a write request — no `AddressFormatError`-style failure. -/
theorem c4_counterexample :
    ipv4_to_bytes "10.0.1" = some [10, 0, 1] ∧
    (insert_lpm 1 7 3 1 0 10 "10.0.1" 24 0).isSome = true := by decide

/-- C4 (amended): `insert_lpm` fails (the parse error escapes, and no write
request is constructed) exactly when some dot-separated component of the
address fails to parse as an integer in `[0, 255]`; when all components
parse in range, the LPM match value equals exactly the parsed octet bytes,
one byte per component — with no requirement that there be 4 of them. -/
theorem c4_address_parsing (tid mid aid pid dev eid : Nat) (ip : String)
    (pl : Nat) (port : Int) :
    (ipv4_to_bytes ip = none → insert_lpm tid mid aid pid dev eid ip pl port = none) ∧
    (∀ bs, ipv4_to_bytes ip = some bs →
      (∃ vals : List Int, (splitOnDot ip.toList).mapM pythonInt = some vals ∧
        (∀ v ∈ vals, 0 ≤ v ∧ v < 256) ∧ bs = vals.map Int.toNat) ∧
      (∀ w, insert_lpm tid mid aid pid dev eid ip pl port = some w →
        lpmValuesOf w = [[bs]])) := by
  constructor
  · intro hip
    unfold insert_lpm
    rw [hip]
  · intro bs hbs
    constructor
    · unfold ipv4_to_bytes at hbs
      cases hm : (splitOnDot ip.toList).mapM pythonInt with
      | none => rw [hm] at hbs; exact absurd hbs (by simp)
      | some vals =>
        rw [hm] at hbs
        by_cases hall : vals.all (fun v => 0 ≤ v && v < 256) = true
        · simp only [hall, if_true] at hbs
          refine ⟨vals, rfl, ?_, ?_⟩
          · intro v hv
            have := List.all_eq_true.mp hall v hv
            simpa using this
          · simp only [Option.some.injEq] at hbs
            exact hbs.symm
        · simp [hall] at hbs
    · intro w hw
      unfold insert_lpm at hw
      rw [hbs] at hw
      cases hp : to_bytes port 2 with
      | none => rw [hp] at hw; exact absurd hw (by simp)
      | some pval =>
        rw [hp] at hw
        simp only [Option.some.injEq] at hw
        subst hw
        rfl

theorem c4_witness :
    insert_lpm 1 7 3 1 0 10 "10.0.0.x" 32 0 = none ∧
    (insert_lpm 1 7 3 1 0 10 "10.0.0.7" 32 0).map lpmValuesOf = some [[[10, 0, 0, 7]]] := by
  constructor
  · exact (c4_address_parsing 1 7 3 1 0 10 "10.0.0.x" 32 0).1 (by decide)
  · cases heval : insert_lpm 1 7 3 1 0 10 "10.0.0.7" 32 0 with
    | none => exact absurd heval (by decide)
    | some w =>
      have h2 := ((c4_address_parsing 1 7 3 1 0 10 "10.0.0.7" 32 0).2
        [10, 0, 0, 7] (by decide)).2 w heval
      simp [h2]

/-- C10: for every `outputPort` outside `[0, 65535]` the 2-byte encoding
raises before any write request is constructed or submitted; under the
precondition `0 ≤ outputPort < 65536` the encoding never fails and always
yields exactly 2 bytes. -/
theorem c10_port_encoding_bounds (port : Int) (tid mid aid pid dev eid : Nat)
    (dst : String) (pl : Nat) :
    ((port < 0 ∨ (65536 : Int) ≤ port) →
      to_bytes port 2 = none ∧ insert_lpm tid mid aid pid dev eid dst pl port = none) ∧
    (0 ≤ port → port < 65536 →
      ∃ bs, to_bytes port 2 = some bs ∧ bs.length = 2) := by
  constructor
  · intro hout
    have ht : to_bytes port 2 = none := by
      rcases hout with h | h
      · exact to_bytes_neg port 2 h
      · exact to_bytes_overflow port h
    refine ⟨ht, ?_⟩
    unfold insert_lpm
    cases ipv4_to_bytes dst <;> simp [ht]
  · intro h0 h1
    exact ⟨natToBytesBE port.toNat 2, to_bytes_in_range port h0 h1,
      natToBytesBE_length port.toNat 2⟩

theorem c10_witness :
    (to_bytes (-1) 2 = none ∧ insert_lpm 1 7 3 1 0 10 "10.0.0.1" 32 (-1) = none) ∧
    (∃ bs, to_bytes 300 2 = some bs ∧ bs.length = 2) :=
  ⟨(c10_port_encoding_bounds (-1) 1 7 3 1 0 10 "10.0.0.1" 32).1 (Or.inl (by norm_num)),
   (c10_port_encoding_bounds 300 1 7 3 1 0 10 "10.0.0.1" 32).2 (by norm_num) (by norm_num)⟩

/-- C5: when the requested action is found and no parameter named `"port"`
exists on it, the resolved parameter id is the first declared parameter's id
(`a.params[0].id`); with zero parameters the resolved id stays `None`, so the
truthiness check over the four ids fails and resolution aborts. -/
theorem c5_param_fallback (aname : String) (acts : List P4Action) (a : P4Action)
    (hfind : firstMatchingAction aname acts = some a)
    (hnoport : ∀ p ∈ a.params, p.name ≠ "port") :
    scan_actions aname acts = (some a.preamble.id, a.params.head?.map Param.id) ∧
    (a.params = [] → ∀ t m, pyAll [t, m, (scan_actions aname acts).1,
      (scan_actions aname acts).2] = false) := by
  have hs : scan_actions aname acts = (some a.preamble.id, fallbackParamId a) := by
    rw [scan_actions_eq aname acts, hfind]
  have hsp := scan_params_none a.params hnoport
  have hfb : fallbackParamId a = a.params.head?.map Param.id := by
    unfold fallbackParamId
    rw [hsp]
    cases a.params <;> simp
  constructor
  · rw [hs, hfb]
  · intro hnil t m
    rw [hs, hfb, hnil]
    simp [pyAll, truthy]

/-- An action list exercising both C5 cases: `"actA"` has parameters but none
named `"port"`; `"actB"` has zero parameters. -/
def c5Acts : List P4Action :=
  [{ preamble := { name := "actA", id := 3 },
     params := [{ name := "x", id := 5 }, { name := "y", id := 6 }] },
   { preamble := { name := "actB", id := 4 }, params := [] }]

theorem c5_witness :
    scan_actions "actA" c5Acts = (some 3, some 5) ∧
    pyAll [some 1, some 7, (scan_actions "actB" c5Acts).1,
      (scan_actions "actB" c5Acts).2] = false := by
  constructor
  · have h := (c5_param_fallback "actA" c5Acts
      { preamble := { name := "actA", id := 3 },
        params := [{ name := "x", id := 5 }, { name := "y", id := 6 }] }
      (by decide) (by decide)).1
    simpa using h
  · exact (c5_param_fallback "actB" c5Acts
      { preamble := { name := "actB", id := 4 }, params := [] }
      (by decide) (by decide)).2 rfl (some 1) (some 7)

/-- C9: even when all four symbolic names are found, a resolved identifier
equal to 0 makes the truthiness check `all([...])` fail, so `main` aborts
with the could-not-find-IDs error and submits no write request. -/
theorem c9_zero_id_aborts (args : Args) (env : Env) (p4info : P4Info) (cfg : List Nat)
    (harb : env.arb_reply = ArbReply.arbitration 0)
    (hp4 : env.p4info_load = some p4info)
    (hjson : env.json_load = some cfg)
    (hinst : env.install_ok = true)
    (hzero :
      (scan_tables "my_ingress.ipv4_match" "hdr.ipv4.dst_addr" p4info.tables).1 = some 0 ∨
      (scan_tables "my_ingress.ipv4_match" "hdr.ipv4.dst_addr" p4info.tables).2 = some 0 ∨
      (scan_actions "my_ingress.to_port_action" p4info.actions).1 = some 0 ∨
      (scan_actions "my_ingress.to_port_action" p4info.actions).2 = some 0) :
    pyAll [(scan_tables "my_ingress.ipv4_match" "hdr.ipv4.dst_addr" p4info.tables).1,
           (scan_tables "my_ingress.ipv4_match" "hdr.ipv4.dst_addr" p4info.tables).2,
           (scan_actions "my_ingress.to_port_action" p4info.actions).1,
           (scan_actions "my_ingress.to_port_action" p4info.actions).2] = false ∧
    writesOf (main_run args env) = [] := by
  have hall : pyAll
      [(scan_tables "my_ingress.ipv4_match" "hdr.ipv4.dst_addr" p4info.tables).1,
       (scan_tables "my_ingress.ipv4_match" "hdr.ipv4.dst_addr" p4info.tables).2,
       (scan_actions "my_ingress.to_port_action" p4info.actions).1,
       (scan_actions "my_ingress.to_port_action" p4info.actions).2] = false := by
    rcases hzero with h | h | h | h <;> simp [pyAll, truthy, h]
  refine ⟨hall, ?_⟩
  obtain ⟨arb, p4l, jl, inst, w1, w2⟩ := env
  simp only at harb hp4 hjson hinst
  subst harb hp4 hjson hinst
  simp [main_run, hall, writesOf]

/-- A P4Info whose names all match what `main` looks up, but whose table id
is 0: every name is found, yet the truthiness check rejects the result. -/
def c9P4Info : P4Info :=
  { tables := [{ preamble := { name := "my_ingress.ipv4_match", id := 0 }
                 match_fields := [{ name := "hdr.ipv4.dst_addr", id := 7 }] }]
    actions := [{ preamble := { name := "my_ingress.to_port_action", id := 3 }
                  params := [{ name := "port", id := 1 }] }] }

def c9Env : Env := { envAllOk with p4info_load := some c9P4Info }

theorem c9_witness :
    writesOf (main_run argsEx c9Env) = [] :=
  (c9_zero_id_aborts argsEx c9Env c9P4Info [1, 2, 3] rfl rfl rfl rfl
    (Or.inl (by decide))).2

/-- C1: a rule-insertion write request appears in the trace only when the
first stream reply was an arbitration update with status code 0 and the
pipeline-installation call succeeded; if arbitration yields non-primary (or
anything other than a successful arbitration reply) or installation fails,
zero write requests are submitted. -/
theorem c1_writes_gated (args : Args) (env : Env) :
    (writesOf (main_run args env) ≠ [] →
      env.arb_reply = ArbReply.arbitration 0 ∧ env.install_ok = true) ∧
    ((env.arb_reply ≠ ArbReply.arbitration 0 ∨ env.install_ok = false) →
      writesOf (main_run args env) = []) := by
  obtain ⟨arb, p4l, jl, inst, w1, w2⟩ := env
  cases arb with
  | rpcError => simp [main_run, writesOf]
  | nonArbitration => simp [main_run, writesOf]
  | arbitration code =>
    by_cases hc : code = 0
    · subst hc
      cases p4l with
      | none => simp [main_run, writesOf]
      | some p4info =>
        cases jl with
        | none => simp [main_run, writesOf]
        | some cfg =>
          cases inst with
          | false => simp [main_run, writesOf]
          | true =>
            constructor
            · intro _
              exact ⟨rfl, rfl⟩
            · intro h
              rcases h with h | h <;> simp at h
    · constructor
      · intro hne
        exfalso
        apply hne
        simp [main_run, writesOf, hc]
      · intro _
        simp [main_run, writesOf, hc]

theorem c1_witness :
    (envAllOk.arb_reply = ArbReply.arbitration 0 ∧ envAllOk.install_ok = true) ∧
    writesOf (main_run argsEx { envAllOk with install_ok := false }) = [] :=
  ⟨(c1_writes_gated argsEx envAllOk).1 (by decide),
   (c1_writes_gated argsEx { envAllOk with install_ok := false }).2 (Or.inr rfl)⟩

theorem insert_lpm_run_flag (tid mid aid pid : Nat) (args : Args) (ok : Bool)
    (dst : String) (pl : Nat) (port : Int) :
    insert_lpm_run tid mid aid pid args ok dst pl port =
    insert_lpm_run tid mid aid pid args true dst pl port := by
  unfold insert_lpm_run
  cases insert_lpm tid mid aid pid args.device_id args.election_id dst pl port <;>
    cases ok <;> rfl

theorem insert_lpm_run_election (tid mid aid pid : Nat) (args : Args) (ok : Bool)
    (dst : String) (pl : Nat) (port : Int) :
    ∀ m ∈ (insert_lpm_run tid mid aid pid args ok dst pl port).1,
      msgElectionId m = { high := 0, low := args.election_id } := by
  intro m hm
  unfold insert_lpm_run at hm
  cases h : insert_lpm tid mid aid pid args.device_id args.election_id dst pl port with
  | none => rw [h] at hm; simp at hm
  | some w =>
    rw [h] at hm
    have hel := (insert_lpm_some_shape tid mid aid pid
      args.device_id args.election_id dst pl port w h).1
    cases ok <;> simp_all [msgElectionId]

/-- C6: every `insert_lpm` call that constructs a request constructs exactly
one write request with exactly one update, of type INSERT, over a single
table entry; end to end, with election id 10 and device id 0 after primary
and a successful install, the run issues exactly two write requests whose
entries carry destination bytes `[10,0,0,1]` and `[10,0,0,2]`. -/
theorem c6_single_insert_per_call (tid mid aid pid dev eid : Nat) (dst : String)
    (pl : Nat) (port : Int) (w : WriteRequest)
    (h : insert_lpm tid mid aid pid dev eid dst pl port = some w) :
    (w.updates.length = 1 ∧ ∀ u ∈ w.updates, u.type = UpdateType.INSERT ∧
      u.entity.table_entry.matchFields.length = 1) ∧
    ((writesOf (main_run argsEx envAllOk)).length = 2 ∧
     (writesOf (main_run argsEx envAllOk)).map lpmValuesOf =
       [[[[10, 0, 0, 1]]], [[[10, 0, 0, 2]]]] ∧
     ∀ wr ∈ writesOf (main_run argsEx envAllOk),
       wr.updates.length = 1 ∧ ∀ u ∈ wr.updates, u.type = UpdateType.INSERT) := by
  have hs := insert_lpm_some_shape tid mid aid pid dev eid dst pl port w h
  refine ⟨⟨hs.2.2.1, ?_⟩, by decide⟩
  intro u hu
  exact ⟨(hs.2.2.2 u hu).1, (hs.2.2.2 u hu).2.2⟩

theorem c6_witness :
    (insert_lpm 42 7 3 1 0 10 "10.0.0.1" 32 0).map (fun w => w.updates.length) =
      some 1 := by
  cases h : insert_lpm 42 7 3 1 0 10 "10.0.0.1" 32 0 with
  | none => exact absurd h (by decide)
  | some w =>
    have h1 := (c6_single_insert_per_call 42 7 3 1 0 10 "10.0.0.1" 32 0 w h).1.1
    simp [h1]

/-- C7: a rejected write RPC is caught inside `insert_lpm` and is non-fatal:
the submitted message trace is independent of the write outcomes (so the
second insertion is attempted even when the first is rejected), and whenever
the request was constructed, the call returns normally even on RPC failure. -/
theorem c7_write_failure_nonfatal (args : Args) (env : Env) (b1 b2 : Bool) :
    main_run args { env with write1_ok := b1, write2_ok := b2 } = main_run args env ∧
    (∀ tid mid aid pid dst pl port,
      (insert_lpm tid mid aid pid args.device_id args.election_id dst pl port).isSome
        = true →
      (insert_lpm_run tid mid aid pid args false dst pl port).2 = Except.ok ()) := by
  constructor
  · obtain ⟨arb, p4l, jl, inst, w1, w2⟩ := env
    cases arb with
    | rpcError => rfl
    | nonArbitration => rfl
    | arbitration code =>
      by_cases hc : code = 0
      · subst hc
        cases p4l with
        | none => rfl
        | some p4info =>
          cases jl with
          | none => rfl
          | some cfg =>
            cases inst with
            | false => rfl
            | true => simp only [main_run, insert_lpm_run_flag]
      · simp [main_run, hc]
  · intro tid mid aid pid dst pl port hsome
    unfold insert_lpm_run
    cases h : insert_lpm tid mid aid pid args.device_id args.election_id dst pl port with
    | none => rw [h] at hsome; simp at hsome
    | some w => rfl

theorem c7_witness :
    main_run argsEx { envAllOk with write1_ok := false, write2_ok := false } =
      main_run argsEx envAllOk ∧
    (insert_lpm_run 42 7 3 1 argsEx false "10.0.0.1" 32 0).2 = Except.ok () :=
  ⟨(c7_write_failure_nonfatal argsEx envAllOk false false).1,
   (c7_write_failure_nonfatal argsEx envAllOk false false).2 42 7 3 1 "10.0.0.1" 32 0
     (by decide)⟩

/-- C8: every message the controller sends — the initial arbitration claim,
every periodic reinforcement claim, the pipeline-installation request, and
every rule write request — carries election id high = 0 and low = the
configured election identifier. -/
theorem c8_election_id_constant (args : Args) (env : Env) :
    (∀ n, (stream_requests args n).election_id = { high := 0, low := args.election_id }) ∧
    (∀ m ∈ main_run args env, msgElectionId m = { high := 0, low := args.election_id }) := by
  refine ⟨fun _ => rfl, ?_⟩
  intro m hm
  obtain ⟨arb, p4l, jl, inst, w1, w2⟩ := env
  cases arb with
  | rpcError => simp [main_run] at hm; subst hm; rfl
  | nonArbitration => simp [main_run] at hm; subst hm; rfl
  | arbitration code =>
    by_cases hc : code = 0
    · subst hc
      cases p4l with
      | none => simp [main_run] at hm; subst hm; rfl
      | some p4info =>
        cases jl with
        | none => simp [main_run] at hm; subst hm; rfl
        | some cfg =>
          cases inst with
          | false =>
            simp [main_run] at hm
            rcases hm with hm | hm <;> subst hm <;> rfl
          | true =>
            simp only [main_run] at hm
            rw [if_neg (by omega : ¬ (0 : Nat) ≠ 0)] at hm
            split at hm
            · split at hm
              · split at hm
                · split at hm
                  · simp only [List.cons_append, List.nil_append,
                      List.mem_cons] at hm
                    rcases hm with hm | hm | hm
                    · subst hm; rfl
                    · subst hm; rfl
                    · exact insert_lpm_run_election _ _ _ _ args _ _ _ _ m hm
                  · simp only [List.cons_append, List.nil_append,
                      List.mem_cons, List.mem_append] at hm
                    rcases hm with hm | hm | hm | hm
                    · subst hm; rfl
                    · subst hm; rfl
                    · exact insert_lpm_run_election _ _ _ _ args _ _ _ _ m hm
                    · exact insert_lpm_run_election _ _ _ _ args _ _ _ _ m hm
                · simp at hm
                  rcases hm with hm | hm <;> subst hm <;> rfl
              · simp at hm
                rcases hm with hm | hm <;> subst hm <;> rfl
            · simp at hm
              rcases hm with hm | hm <;> subst hm <;> rfl
    · simp [main_run, hc] at hm
      subst hm
      rfl

theorem c8_witness :
    (stream_requests argsEx 5).election_id = { high := 0, low := 10 } ∧
    msgElectionId (DeviceMsg.streamArb (stream_requests argsEx 0)) =
      { high := 0, low := 10 } :=
  ⟨(c8_election_id_constant argsEx envAllOk).1 5,
   (c8_election_id_constant argsEx envAllOk).2
     (DeviceMsg.streamArb (stream_requests argsEx 0)) (by decide)⟩
